import Mathlib

/-!
Shallow embedding of the fantasy-cricket team-selection optimizers of the
repository (ipl-rohit/src, ipl-rohit/src-v2 and the team_selection and src
script variants), together with proofs about the roster invariants, the
feasibility pre-check, the scoring functions and the post-hoc captain /
vice-captain assignment.

Numeric data (form scores, credits, per-match averages) is embedded as `ℚ`;
DataFrame rows become structures, boolean decision variables become
`List Bool` masks aligned with the player list, and the external LP / NSGA-II
solvers are modelled by the feasible assignments they may return (or, for the
small concrete pools, by exhaustive maximization over all masks).
-/

/-- The four canonical player roles (`player_type` / `Player Type` column). -/
inductive Role
  | WK
  | BAT
  | BOWL
  | ALL
deriving DecidableEq, Repr

/-- The `Role_In_Team` / `role` tag attached to each selected player of an
output roster: `Captain`, `Vice-Captain` or plain `Player`. -/
inductive Tag
  | Captain
  | ViceCaptain
  | Player
deriving DecidableEq, Repr

/-- Number of `true` entries of a selection mask. -/
def countTrue (l : List Bool) : Nat := l.count true

/-- All boolean vectors of length `n` (the search space of the binary
selection problems). -/
def allVecs : Nat → List (List Bool)
  | 0 => [[]]
  | n + 1 => (allVecs n).map (List.cons false) ++ (allVecs n).map (List.cons true)

/-- Number of roster entries carrying tag `t`. -/
def tagCount {α : Type} (t : Tag) (roster : List (α × Tag)) : Nat :=
  (roster.filter (fun q => decide (q.2 = t))).length

namespace Rohit

/-- One row of the `match_df` player table consumed by
`ipl-rohit/src/team_optimization.py` and `ipl-rohit/src-v2/team_optimization.py`:
name, team, role, the three per-match metrics and the credit cost. -/
structure Player where
  name : String
  team : String
  role : Role
  runs : ℚ
  wkts : ℚ
  dis : ℚ
  credits : ℚ
deriving DecidableEq, Repr

/-- `len(match_df[match_df["player_type"] == r])`. -/
def roleCountPool (r : Role) (pool : List Player) : Nat :=
  (pool.filter (fun p => decide (p.role = r))).length

/-- `len(match_df[match_df["team"] == t])`. -/
def teamCountPool (t : String) (pool : List Player) : Nat :=
  (pool.filter (fun p => decide (p.team = t))).length

/-- `match_df["team"].unique()`: the distinct team names in first-occurrence
order. -/
def uniqueTeams (pool : List Player) : List String :=
  pool.foldl (fun acc p => if p.team ∈ acc then acc else acc ++ [p.team]) []

/-- The feasibility pre-check of `optimize_team`
(`ipl-rohit/src/team_optimization.py` lines 8-44, identical in `src-v2` lines
150-184): exactly two teams, at least 11 players, at least 1 WK / 3 BAT /
3 BOWL / 1 ALL, and at least 5 players from each team.  `some msg` models the
`ValueError(msg)` raised, `none` means the checks passed. -/
def precheck (pool : List Player) : Option String :=
  match uniqueTeams pool with
  | [t1, t2] =>
    if pool.length < 11 then some "Not enough players (need at least 11)"
    else if roleCountPool Role.WK pool < 1 then
      some "Not enough wicketkeepers (need at least 1)"
    else if roleCountPool Role.BAT pool < 3 then
      some "Not enough batsmen (need at least 3)"
    else if roleCountPool Role.BOWL pool < 3 then
      some "Not enough bowlers (need at least 3)"
    else if roleCountPool Role.ALL pool < 1 then
      some "Not enough all-rounders (need at least 1)"
    else if teamCountPool t1 pool < 5 ∨ teamCountPool t2 pool < 5 then
      some "Not enough players from each team (need at least 5 per team)"
    else none
  | _ => some "Expected exactly two teams in the player pool"

/-- `optimize_team` with the downstream solve-and-extract step abstracted as
`solver`: the pre-check runs first and on failure the `ValueError` propagates
(`Except.error`) without the solver ever being applied. -/
def optimize_team (solver : List Player → List (Player × Tag)) (pool : List Player) :
    Except String (List (Player × Tag)) :=
  match precheck pool with
  | some e => Except.error e
  | none => Except.ok (solver pool)

/-- `true` iff the pool violates one of the pre-checked minimums (total ≥ 11,
role minimums 1/3/3/1, or some team contributing fewer than 5 players). -/
def belowMinimumsB (pool : List Player) : Bool :=
  decide (pool.length < 11) ||
  decide (roleCountPool Role.WK pool < 1) ||
  decide (roleCountPool Role.BAT pool < 3) ||
  decide (roleCountPool Role.BOWL pool < 3) ||
  decide (roleCountPool Role.ALL pool < 1) ||
  (uniqueTeams pool).any (fun t => decide (teamCountPool t pool < 5))

/-- Selected-count of players of role `r`:
`lpSum(x[i] for i in players if match_df.loc[i, "player_type"] == r)`. -/
def roleCountSel (r : Role) : List Player → List Bool → Nat
  | p :: ps, b :: bs => (if b ∧ p.role = r then 1 else 0) + roleCountSel r ps bs
  | _, _ => 0

/-- Selected-count of players of team `t`. -/
def teamCountSel (t : String) : List Player → List Bool → Nat
  | p :: ps, b :: bs => (if b ∧ p.team = t then 1 else 0) + teamCountSel t ps bs
  | _, _ => 0

/-- `lpSum(x[i] * match_df.loc[i, "credits"])`: total credit cost of the
selection. -/
def creditsSel : List Player → List Bool → ℚ
  | p :: ps, b :: bs => (if b then p.credits else 0) + creditsSel ps bs
  | _, _ => 0

/-- The pointwise captaincy constraints `c[i] <= x[i]`, `vc[i] <= x[i]`,
`c[i] + vc[i] <= 1` of the LP (lines 90-93). -/
def capLinkedB : List Bool → List Bool → List Bool → Bool
  | x :: xs, c :: cs, v :: vs => (!c || x) && (!v || x) && !(c && v) && capLinkedB xs cs vs
  | [], [], [] => true
  | _, _, _ => false

/-- The roster-extraction loop of `optimize_team` (lines 99-116): each player
with `x[i] = 1` is emitted, tagged `Captain` if `c[i] = 1`, else
`Vice-Captain` if `vc[i] = 1`, else `Player`. -/
def rosterTags : List Player → List Bool → List Bool → List Bool → List (Player × Tag)
  | p :: ps, x :: xs, c :: cs, v :: vs =>
    (if x then [(p, if c then Tag.Captain else if v then Tag.ViceCaptain else Tag.Player)]
     else []) ++ rosterTags ps xs cs vs
  | _, _, _, _ => []

/-- The full constraint set of the LP of `ipl-rohit/src/team_optimization.py`
(lines 64-93), for the team names `t1`, `t2` read off
`match_df["team"].unique()`: exactly 11 selected, role bounds 1-2 / 3-5 /
3-5 / 1-3, 5-6 per team, credits ≤ 100, exactly one captain, exactly one
vice-captain, and the pointwise captaincy links.  A solution the solver
returns with `Optimal` status satisfies exactly this predicate. -/
def feasible (t1 t2 : String) (pool : List Player) (x c vc : List Bool) : Prop :=
  x.length = pool.length ∧ c.length = pool.length ∧ vc.length = pool.length ∧
  countTrue x = 11 ∧
  1 ≤ roleCountSel Role.WK pool x ∧ roleCountSel Role.WK pool x ≤ 2 ∧
  3 ≤ roleCountSel Role.BAT pool x ∧ roleCountSel Role.BAT pool x ≤ 5 ∧
  3 ≤ roleCountSel Role.BOWL pool x ∧ roleCountSel Role.BOWL pool x ≤ 5 ∧
  1 ≤ roleCountSel Role.ALL pool x ∧ roleCountSel Role.ALL pool x ≤ 3 ∧
  5 ≤ teamCountSel t1 pool x ∧ teamCountSel t1 pool x ≤ 6 ∧
  5 ≤ teamCountSel t2 pool x ∧ teamCountSel t2 pool x ≤ 6 ∧
  creditsSel pool x ≤ 100 ∧
  countTrue c = 1 ∧ countTrue vc = 1 ∧
  capLinkedB x c vc = true

/-- The captaincy multiplier `x[i] + c[i] + 0.5 * vc[i]` of
`ipl-rohit/src-v2/team_optimization.py` line 59. -/
def capMultiplier (x c vc : Bool) : ℚ :=
  (if x then 1 else 0) + (if c then 1 else 0) + (1 / 2) * (if vc then 1 else 0)

/-- The `runs` accumulation loop of `Dream11Problem._evaluate`
(`src-v2` lines 55-62). -/
def objRuns : List Player → List Bool → List Bool → List Bool → ℚ
  | p :: ps, x :: xs, c :: cs, v :: vs => p.runs * capMultiplier x c v + objRuns ps xs cs vs
  | _, _, _, _ => 0

/-- The `wkts` accumulation loop of `Dream11Problem._evaluate`. -/
def objWkts : List Player → List Bool → List Bool → List Bool → ℚ
  | p :: ps, x :: xs, c :: cs, v :: vs => p.wkts * capMultiplier x c v + objWkts ps xs cs vs
  | _, _, _, _ => 0

/-- The `dis` accumulation loop of `Dream11Problem._evaluate`. -/
def objDis : List Player → List Bool → List Bool → List Bool → ℚ
  | p :: ps, x :: xs, c :: cs, v :: vs => p.dis * capMultiplier x c v + objDis ps xs cs vs
  | _, _, _, _ => 0

/-- The spec's formula for a Strategy-B objective:
`Σ metric[i] * (selected[i] + captain[i] + 0.5 * vice_captain[i])`. -/
def specTotal (metric : Player → ℚ) (pool : List Player) (x c vc : List Bool) : ℚ :=
  ((pool.zip (x.zip (c.zip vc))).map
    (fun q => metric q.1 *
      ((if q.2.1 then (1 : ℚ) else 0) + (if q.2.2.1 then 1 else 0) +
        (1 / 2) * (if q.2.2.2 then 1 else 0)))).sum

end Rohit

namespace V1

/-- One row of the merged player table of `team_selection/v1.py`, after the
`Adjusted_Score` column has been computed: team, role, adjusted score, and the
player's credit cost (present in the squad CSV; `v1.py` carries it along but
never constrains it - section 3 of the script is titled
"Optimization (No Credit Constraint, Adjustable Team Weights)"). -/
structure Player where
  team : String
  role : Role
  adjusted : ℚ
  credits : ℚ
deriving DecidableEq, Repr

/-- Pool count of role `r`. -/
def roleCountPool (r : Role) (pool : List Player) : Nat :=
  (pool.filter (fun p => decide (p.role = r))).length

/-- Pool count of bowling options (`BOWL` plus `ALL`). -/
def bowlOptionsPool (pool : List Player) : Nat :=
  (pool.filter (fun p => decide (p.role = Role.BOWL ∨ p.role = Role.ALL))).length

/-- Selected-count of role `r`. -/
def roleCountSel (r : Role) : List Player → List Bool → Nat
  | p :: ps, b :: bs => (if b ∧ p.role = r then 1 else 0) + roleCountSel r ps bs
  | _, _ => 0

/-- Selected-count of bowling options. -/
def bowlOptionsSel : List Player → List Bool → Nat
  | p :: ps, b :: bs =>
    (if b ∧ (p.role = Role.BOWL ∨ p.role = Role.ALL) then 1 else 0) + bowlOptionsSel ps bs
  | _, _ => 0

/-- Selected-count of team `t`. -/
def teamCountSel (t : String) : List Player → List Bool → Nat
  | p :: ps, b :: bs => (if b ∧ p.team = t then 1 else 0) + teamCountSel t ps bs
  | _, _ => 0

/-- Total `Adjusted_Score` of a selection (the LP objective of `v1.py`). -/
def totalAdjSel : List Player → List Bool → ℚ
  | p :: ps, b :: bs => (if b then p.adjusted else 0) + totalAdjSel ps bs
  | _, _ => 0

/-- Total credit cost of a selection (never constrained by `v1.py`). -/
def creditsSel : List Player → List Bool → ℚ
  | p :: ps, b :: bs => (if b then p.credits else 0) + creditsSel ps bs
  | _, _ => 0

/-- The constraint set of `v1.py`'s `optimize_team` (lines 82-100, with the
default `total_players=11`): exactly 11 selected, at least 2 batters,
2 bowlers, 5 bowling options, 1 keeper, and at least 1 player from each team.
There is no credit constraint. -/
def feasibleB (t1 t2 : String) (pool : List Player) (sel : List Bool) : Bool :=
  decide (sel.length = pool.length) &&
  decide (countTrue sel = 11) &&
  decide (2 ≤ roleCountSel Role.BAT pool sel) &&
  decide (2 ≤ roleCountSel Role.BOWL pool sel) &&
  decide (5 ≤ bowlOptionsSel pool sel) &&
  decide (1 ≤ roleCountSel Role.WK pool sel) &&
  decide (1 ≤ teamCountSel t1 pool sel) &&
  decide (1 ≤ teamCountSel t2 pool sel)

/-- `v1.py`'s `optimize_team(team1, team2)` with default parameters: filter the
pool to the two teams, bail out (`return None`) if the availability pre-check
fails, and otherwise return a feasible selection maximizing the total adjusted
score.  The external CBC solve is modelled by exhaustive maximization over all
masks; ties are broken by keeping the earliest maximal mask, one deterministic
refinement of the solver's arbitrary tie-break. -/
def optimize_team (t1 t2 : String) (pool0 : List Player) : Option (List Bool) :=
  let pool := pool0.filter (fun p => decide (p.team = t1 ∨ p.team = t2))
  if roleCountPool Role.BAT pool < 2 ∨ roleCountPool Role.BOWL pool < 3 ∨
      bowlOptionsPool pool < 5 ∨ roleCountPool Role.WK pool < 1 then none
  else
    match (allVecs pool.length).filter (feasibleB t1 t2 pool) with
    | [] => none
    | s :: rest =>
      some (rest.foldl (fun best cand =>
        if totalAdjSel pool best < totalAdjSel pool cand then cand else best) s)

/-- An 11-player pool (6 from team "A", 5 from team "B"; 1 WK, 4 BAT, 3 BOWL,
3 ALL) in which every player costs 10 credits.  `v1.py`'s constraint
`Total_Players == 11` forces the whole pool to be selected. -/
def exPool : List Player :=
  [⟨"A", Role.WK, 90, 10⟩, ⟨"A", Role.BAT, 80, 10⟩, ⟨"A", Role.BAT, 70, 10⟩,
   ⟨"A", Role.BOWL, 60, 10⟩, ⟨"A", Role.BOWL, 50, 10⟩, ⟨"A", Role.ALL, 40, 10⟩,
   ⟨"B", Role.BAT, 85, 10⟩, ⟨"B", Role.BAT, 75, 10⟩, ⟨"B", Role.BOWL, 65, 10⟩,
   ⟨"B", Role.ALL, 55, 10⟩, ⟨"B", Role.ALL, 45, 10⟩]

end V1

namespace Ipl

/-- `calculate_score` of `team_selection/ipl.py` (lines 20-35): BAT uses the
batting form, BOWL the bowling form, ALL the average `(batting + bowling) / 2`
and WK the batting form; unknown roles score 0.  In `ipl.py` the module-level
`allrounder_weight = 1.0` is never reassigned (only the batter, keeper and
bowler weights are overwritten from the ground data). -/
def calculate_score (batter_weight bowler_weight allrounder_weight keeper_weight : ℚ)
    (role : Role) (batting bowling : ℚ) : ℚ :=
  if role = Role.BAT then batter_weight * batting
  else if role = Role.BOWL then bowler_weight * bowling
  else if role = Role.ALL then allrounder_weight * ((batting + bowling) / 2)
  else if role = Role.WK then keeper_weight * batting
  else 0

end Ipl

/-- Modelled from the spec: the all-rounder weight the claim describes,
`max(1, (battingWeight + bowlingWeight) / 2)`. -/
def specAllrounderWeight (battingWeight bowlingWeight : ℚ) : ℚ :=
  max 1 ((battingWeight + bowlingWeight) / 2)

/-- Modelled from the spec: the ALLROUNDER score the claim describes,
`max(battingMetric, bowlingMetric)` scaled by `allrounderWeight`. -/
def specAllrounderScore (battingWeight bowlingWeight batting bowling : ℚ) : ℚ :=
  specAllrounderWeight battingWeight bowlingWeight * max batting bowling

namespace Moo2

/-- The all-rounder weight computed by `team_selection/moo-2.py` lines 45-47
(identically `moo-code.py` lines 79-81): the mean of the batter and bowler
ground weights, floored at 1. -/
def allrounderWeightOf (batter_weight bowler_weight : ℚ) : ℚ :=
  let w := (batter_weight + bowler_weight) / 2
  if w < 1 then 1 else w

/-- `form_scale_factor = 2.5` of `moo-2.py` line 50. -/
def form_scale_factor : ℚ := 5 / 2

/-- `calculate_score` of `moo-2.py` (lines 51-63): forms are scaled by
`form_scale_factor`, then BAT/WK use batting, BOWL uses bowling, and ALL uses
`allrounder_weight * max(batting, bowling)`. -/
def calculate_score (batter_weight keeper_weight bowler_weight allrounder_weight : ℚ)
    (role : Role) (batting_form bowling_form : ℚ) : ℚ :=
  let batting := batting_form * form_scale_factor
  let bowling := bowling_form * form_scale_factor
  if role = Role.BAT then batter_weight * batting
  else if role = Role.WK then keeper_weight * batting
  else if role = Role.BOWL then bowler_weight * bowling
  else if role = Role.ALL then allrounder_weight * max batting bowling
  else 0

end Moo2

namespace FinalV4

/-- `Bowler Type` column of `team_selection/final_v4.py` (missing values are
filled with the dash placeholder, modelled as `OTHER`). -/
inductive BowlerType
  | SPIN
  | PACE
  | OTHER
deriving DecidableEq, Repr

/-- The ground's pitch type as classified by `final_v4.py`. -/
inductive GroundType
  | SPIN
  | PACE
deriving DecidableEq, Repr

/-- `calculate_score` of `final_v4.py` (lines 25-45): BAT and WK score
`batter_weight * batting`; BOWL scores `bowler_weight * bowling` with a 20%
boost (factor 6/5) when the bowler's type matches the ground type; ALL scores
`1 * max(batting, bowling)`. -/
def calculate_score (batter_weight bowler_weight : ℚ) (ground_type : GroundType)
    (role : Role) (bowler_type : BowlerType) (batting bowling : ℚ) : ℚ :=
  if role = Role.BAT then batter_weight * batting
  else if role = Role.WK then batter_weight * batting
  else if role = Role.BOWL then
    if ground_type = GroundType.SPIN ∧ bowler_type = BowlerType.SPIN then
      bowler_weight * bowling * (6 / 5)
    else if ground_type = GroundType.PACE ∧ bowler_type = BowlerType.PACE then
      bowler_weight * bowling * (6 / 5)
    else bowler_weight * bowling
  else if role = Role.ALL then 1 * max batting bowling
  else 0

/-- One row of `final_v4.py`'s `team_df`: whether the player belongs to the
home team (`team1`), role, bowler type and the two form metrics. -/
structure Player where
  team1 : Bool
  role : Role
  bowler_type : BowlerType
  batting : ℚ
  bowling : ℚ
deriving DecidableEq, Repr

/-- `Adjusted_Score` (lines 62-65): the score times the home/away weight
(1.05 for the home team, 1.0 otherwise). -/
def adjustedScore (batter_weight bowler_weight : ℚ) (g : GroundType) (p : Player) : ℚ :=
  calculate_score batter_weight bowler_weight g p.role p.bowler_type p.batting p.bowling *
    (if p.team1 then 21 / 20 else 1)

/-- Objective value `Σ x[i] * value[i]` of a selection mask. -/
def totalSel : List ℚ → List Bool → ℚ
  | v :: vs, b :: bs => (if b then v else 0) + totalSel vs bs
  | _, _ => 0

/-- The optimal objective value of the selection LP: the maximum of
`totalSel vals` over every mask of length `n` accepted by the (score-independent)
feasibility predicate `feas`, and 0 if none is. -/
def bestValue (vals : List ℚ) (feas : List Bool → Bool) (n : Nat) : ℚ :=
  ((allVecs n).filter feas).foldl (fun acc s => max acc (totalSel vals s)) 0

/-- Increase the batting metric of player `i` by `d`, leaving everything else
unchanged. -/
def bumpBatting (d : ℚ) : Nat → List Player → List Player
  | _, [] => []
  | 0, p :: ps => { p with batting := p.batting + d } :: ps
  | n + 1, p :: ps => p :: bumpBatting d n ps

/-- Increase the bowling metric of player `i` by `d`, leaving everything else
unchanged. -/
def bumpBowling (d : ℚ) : Nat → List Player → List Player
  | _, [] => []
  | 0, p :: ps => { p with bowling := p.bowling + d } :: ps
  | n + 1, p :: ps => p :: bumpBowling d n ps

end FinalV4

namespace MooCode

/-- A row of the merged squad/form table of
`team_selection/moo-code.py::load_and_preprocess_data` before the
`fillna(0)` step: the two form metrics may be missing (`none` models `NaN`
after the left merge). -/
structure RawPlayer where
  name : String
  team : String
  role : Role
  battingForm? : Option ℚ
  bowlingForm? : Option ℚ
deriving DecidableEq, Repr

/-- The same row after preprocessing, with concrete form values. -/
structure FormPlayer where
  name : String
  team : String
  role : Role
  battingForm : ℚ
  bowlingForm : ℚ
deriving DecidableEq, Repr

/-- The `fillna(0)` step (`moo-code.py` lines 51-52, identical in
`final_v4.py` lines 21-22): missing form values become 0, nothing else
changes. -/
def fillOne (p : RawPlayer) : FormPlayer :=
  ⟨p.name, p.team, p.role, p.battingForm?.getD 0, p.bowlingForm?.getD 0⟩

/-- `fillna(0)` applied to the whole table. -/
def fillForms (l : List RawPlayer) : List FormPlayer := l.map fillOne

/-- The low-form exclusion of `moo-code.py` lines 57-66: a player is kept
unless they are a non-wicketkeeper with both (filled) forms below 50.0. -/
def keepAfterFill (p : FormPlayer) : Bool :=
  if p.role ≠ Role.WK ∧ p.battingForm < 50 ∧ p.bowlingForm < 50 then false else true

/-- `moo-code.py`'s pool preprocessing restricted to the metric handling:
fill missing forms with 0, then drop non-WK low-form players. -/
def preprocessPool (l : List RawPlayer) : List FormPlayer :=
  (fillForms l).filter keepAfterFill

/-- A row of the fully scored player table of `moo-code.py` (after
`adjusted_score` and `credits` are attached).  `id` models the DataFrame row
index (`players.index`), which `optimize_team` uses for `isin` membership
tests. -/
structure Player where
  id : Nat
  team : String
  role : Role
  battingForm : ℚ
  bowlingForm : ℚ
  adjusted : ℚ
  credits : ℚ
deriving DecidableEq, Repr

/-- Insertion step of the descending `sort_values("adjusted_score", ascending=False)`
model. -/
def insertAdjDesc (p : Player) : List Player → List Player
  | [] => [p]
  | q :: qs => if q.adjusted < p.adjusted then p :: q :: qs else q :: insertAdjDesc p qs

/-- Deterministic (stable) model of
`players.sort_values("adjusted_score", ascending=False)`. -/
def sortAdjDesc : List Player → List Player
  | [] => []
  | p :: ps => insertAdjDesc p (sortAdjDesc ps)

/-- `players.iloc[mask.astype(bool)]`: the sub-table picked out by a boolean
mask. -/
def applyMask : List Player → List Bool → List Player
  | p :: ps, b :: bs => (if b then [p] else []) ++ applyMask ps bs
  | _, _ => []

/-- `players[~players.index.isin(selected.index)]`: the rows whose index does
not occur in the selection. -/
def unselected (players sel : List Player) : List Player :=
  players.filter (fun p => decide (p.id ∉ sel.map Player.id))

/-- `players.sort_values("adjusted_score", ascending=False).head(11)`: the
deterministic top-11 fallback of `moo-code.py`. -/
def top11 (players : List Player) : List Player := (sortAdjDesc players).take 11

/-- `valid_indices[np.argmin(res.F[valid_indices])]` (line 241): the first
entry with minimal objective value `F`. -/
def argminF : List (List Bool × ℚ) → Option (List Bool × ℚ)
  | [] => none
  | s :: rest => some (rest.foldl (fun best cand => if cand.2 < best.2 then cand else best) s)

/-- The solution-choice logic of `moo-code.py::optimize_team` lines 229-248.
`res` models `res.X`/`res.F` of the NSGA-II run: `none` for `res.X is None`,
otherwise the list of (mask, objective value F) pairs.  The returned `Bool`
records whether the deterministic top-11 fallback fired, which the code
reports through `logger.error` ("No solutions found by optimizer.") or
`logger.warning` ("All solutions have near-zero objective values."). -/
def chooseSolution (players : List Player) (res : Option (List (List Bool × ℚ))) :
    List Player × Bool :=
  match res with
  | none => (top11 players, true)
  | some sols =>
    if sols.length = 0 then (top11 players, true)
    else
      match argminF (sols.filter (fun s => decide (s.2 < -(1 / 100000 : ℚ)))) with
      | none => (top11 players, true)
      | some best => (applyMask players best.1, false)

/-- `true` when the Pareto front is empty or degenerate: `res.X` is `None` or
empty, or no solution has objective value below the `-1e-5` threshold. -/
def degenerateFront (res : Option (List (List Bool × ℚ))) : Bool :=
  match res with
  | none => true
  | some sols => sols.isEmpty || sols.all (fun s => !(decide (s.2 < -(1 / 100000 : ℚ))))

/-- The team-size adjustment of `moo-code.py` lines 250-259: a team of exactly
11 is returned as is; a smaller team is padded with the highest-adjusted-score
unselected players; a larger team is truncated to the top 11 by adjusted
score.  No role, team or credit constraint is consulted. -/
def adjustTeam (players sel : List Player) : List Player :=
  if sel.length = 11 then sel
  else if sel.length < 11 then
    sel ++ (sortAdjDesc (unselected players sel)).take (11 - sel.length)
  else (sortAdjDesc sel).take 11

/-- `(batting_form > 80) | (bowling_form > 80)`: the high-form captaincy
filter of `moo-code.py` line 264. -/
def highForm (p : Player) : Bool :=
  decide (80 < p.battingForm) || decide (80 < p.bowlingForm)

/-- The captain / vice-captain assignment of `moo-code.py` lines 261-268:
after sorting by adjusted score, the first high-form player (if any) is tagged
Captain and the second (if any) Vice-Captain; every other player keeps the
plain `Player` tag.  When no selected player has a form above 80, no Captain
is assigned at all. -/
def assignRoles (team : List Player) : List (Player × Tag) :=
  let sorted := sortAdjDesc team
  let high := (sorted.filter highForm).map Player.id
  sorted.map fun p =>
    (p, if high.get? 0 = some p.id then Tag.Captain
        else if high.get? 1 = some p.id then Tag.ViceCaptain
        else Tag.Player)

/-- `moo-code.py::optimize_team` after preprocessing, as a function of the
scored pool and of the NSGA-II result: the `< 11` pool guard (lines 200-202),
the solution choice with its fallback (lines 229-248), the team-size
adjustment (lines 250-259) and the captaincy assignment (lines 261-268).  The
`Bool` of the output records a logged fallback. -/
def optimize_team (players : List Player) (res : Option (List (List Bool × ℚ))) :
    Option (List (Player × Tag) × Bool) :=
  if players.length < 11 then none
  else
    let chosen := chooseSolution players res
    some (assignRoles (adjustTeam players chosen.1), chosen.2)

end MooCode

namespace Optimize

/-- A selected player as seen by the captaincy assignment of
`src/src/optimize.py` (lines 256-299): DataFrame index, ground-adjusted score
and `lineupOrder`. -/
structure Player where
  id : Nat
  score : ℚ
  lineupOrder : ℚ
deriving DecidableEq, Repr

/-- Insertion step of the descending `sort_values("Score", ascending=False)`
model. -/
def insertScoreDesc (p : Player) : List Player → List Player
  | [] => [p]
  | q :: qs => if q.score < p.score then p :: q :: qs else q :: insertScoreDesc p qs

/-- Deterministic (stable) model of `sort_values("Score", ascending=False)`. -/
def sortScoreDesc : List Player → List Player
  | [] => []
  | p :: ps => insertScoreDesc p (sortScoreDesc ps)

/-- `preferred_order_threshold = 5` (line 264). -/
def preferred_order_threshold : ℚ := 5

/-- The captain / vice-captain choice of `optimize_fantasy_team`
(lines 256-299), returned as the pair (captain id, vice-captain id):
candidates are the selected players with `lineupOrder < 5` in descending score
order; if there is at least one, the best candidate is Captain and the
Vice-Captain is the next candidate, or failing that the best-scoring remaining
player; if there is no candidate, the two highest scorers overall are used;
an empty team yields `(none, none)` (the code returns `None`). -/
def assignCVC (team : List Player) : Option Nat × Option Nat :=
  let sorted := sortScoreDesc team
  let cands := sorted.filter (fun p => decide (p.lineupOrder < preferred_order_threshold))
  match cands with
  | c :: rest =>
    match rest with
    | v :: _ => (some c.id, some v.id)
    | [] =>
      match sorted.filter (fun q => decide (q.id ≠ c.id)) with
      | v :: _ => (some c.id, some v.id)
      | [] => (some c.id, none)
  | [] =>
    match sorted with
    | c :: v :: _ => (some c.id, some v.id)
    | [c] => (some c.id, none)
    | [] => (none, none)

/-- Modelled from the spec: the assignment the claim describes - Captain and
Vice-Captain are the two highest-scoring players among those whose lineup
order is below the threshold; if fewer than two players meet the threshold,
the two highest-scoring players overall. -/
def specAssignCVC (team : List Player) : Option Nat × Option Nat :=
  let sorted := sortScoreDesc team
  let cands := sorted.filter (fun p => decide (p.lineupOrder < preferred_order_threshold))
  match cands with
  | c :: v :: _ => (some c.id, some v.id)
  | _ =>
    match sorted with
    | c :: v :: _ => (some c.id, some v.id)
    | [c] => (some c.id, none)
    | [] => (none, none)

end Optimize

namespace Rohit

/-- A 22-player pool (11 per team) passing the feasibility pre-check. -/
def exPool : List Player :=
  [⟨"a0", "A", Role.WK, 30, 0, 2, 8⟩, ⟨"a1", "A", Role.BAT, 45, 0, 0, 8⟩,
   ⟨"a2", "A", Role.BAT, 40, 0, 0, 8⟩, ⟨"a3", "A", Role.BAT, 35, 0, 0, 8⟩,
   ⟨"a4", "A", Role.BAT, 25, 0, 0, 8⟩, ⟨"a5", "A", Role.BOWL, 5, 2, 0, 8⟩,
   ⟨"a6", "A", Role.BOWL, 4, 2, 0, 8⟩, ⟨"a7", "A", Role.BOWL, 3, 1, 0, 8⟩,
   ⟨"a8", "A", Role.BOWL, 2, 1, 0, 8⟩, ⟨"a9", "A", Role.ALL, 20, 1, 0, 8⟩,
   ⟨"a10", "A", Role.ALL, 15, 1, 0, 8⟩, ⟨"b0", "B", Role.WK, 28, 0, 2, 8⟩,
   ⟨"b1", "B", Role.BAT, 44, 0, 0, 8⟩, ⟨"b2", "B", Role.BAT, 39, 0, 0, 8⟩,
   ⟨"b3", "B", Role.BAT, 34, 0, 0, 8⟩, ⟨"b4", "B", Role.BAT, 24, 0, 0, 8⟩,
   ⟨"b5", "B", Role.BOWL, 6, 2, 0, 8⟩, ⟨"b6", "B", Role.BOWL, 5, 2, 0, 8⟩,
   ⟨"b7", "B", Role.BOWL, 4, 1, 0, 8⟩, ⟨"b8", "B", Role.BOWL, 3, 1, 0, 8⟩,
   ⟨"b9", "B", Role.ALL, 19, 1, 0, 8⟩, ⟨"b10", "B", Role.ALL, 14, 1, 0, 8⟩]

/-- A selection of `exPool` satisfying every LP constraint: 1 WK, 4 BAT,
4 BOWL, 2 ALL; 6 from team A and 5 from team B; 88 credits. -/
def exX : List Bool :=
  [true, true, true, false, false, true, true, false, false, true, false,
   false, true, true, false, false, true, true, false, false, true, false]

/-- The captain mask: player `a0`. -/
def exC : List Bool :=
  [true, false, false, false, false, false, false, false, false, false, false,
   false, false, false, false, false, false, false, false, false, false, false]

/-- The vice-captain mask: player `a1`. -/
def exVC : List Bool :=
  [false, true, false, false, false, false, false, false, false, false, false,
   false, false, false, false, false, false, false, false, false, false, false]

/-- A 12-player, two-team pool with no all-rounder at all (3 WK, 5 BAT,
4 BOWL). -/
def exPoolNoAll : List Player :=
  [⟨"a0", "A", Role.WK, 30, 0, 2, 8⟩, ⟨"a1", "A", Role.BAT, 45, 0, 0, 8⟩,
   ⟨"a2", "A", Role.BAT, 40, 0, 0, 8⟩, ⟨"a3", "A", Role.BAT, 35, 0, 0, 8⟩,
   ⟨"a4", "A", Role.BOWL, 5, 2, 0, 8⟩, ⟨"a5", "A", Role.BOWL, 4, 2, 0, 8⟩,
   ⟨"b0", "B", Role.WK, 28, 0, 2, 8⟩, ⟨"b1", "B", Role.WK, 26, 0, 2, 8⟩,
   ⟨"b2", "B", Role.BAT, 44, 0, 0, 8⟩, ⟨"b3", "B", Role.BAT, 39, 0, 0, 8⟩,
   ⟨"b4", "B", Role.BOWL, 6, 2, 0, 8⟩, ⟨"b5", "B", Role.BOWL, 5, 2, 0, 8⟩]

/-- A trivial solver stub (used only to instantiate the solver-independence
statements at concrete inputs). -/
def solverA : List Player → List (Player × Tag) := fun _ => []

/-- A second, different solver stub. -/
def solverB : List Player → List (Player × Tag) :=
  fun pool => pool.map (fun p => (p, Tag.Player))

end Rohit

namespace MooCode

/-- Eleven scored players (ids 0-10), every form equal to 60: each one passes
the low-form filter (60 ≥ 50) but none passes the high-form captaincy bar
(60 ≤ 80).  Adjusted scores are distinct. -/
def exTeam : List Player :=
  [⟨0, "A", Role.WK, 60, 60, 110, 9⟩, ⟨1, "A", Role.BAT, 60, 60, 109, 9⟩,
   ⟨2, "A", Role.BAT, 60, 60, 108, 9⟩, ⟨3, "A", Role.BAT, 60, 60, 107, 9⟩,
   ⟨4, "A", Role.BOWL, 60, 60, 106, 9⟩, ⟨5, "A", Role.BOWL, 60, 60, 105, 9⟩,
   ⟨6, "B", Role.BAT, 60, 60, 104, 9⟩, ⟨7, "B", Role.BOWL, 60, 60, 103, 9⟩,
   ⟨8, "B", Role.BOWL, 60, 60, 102, 9⟩, ⟨9, "B", Role.ALL, 60, 60, 101, 9⟩,
   ⟨10, "B", Role.ALL, 60, 60, 100, 9⟩]

/-- An NSGA-II result with one valid (non-degenerate) solution selecting all
eleven players of `exTeam`. -/
def exRes : Option (List (List Bool × ℚ)) :=
  some [(List.replicate 11 true, -500)]

/-- A degenerate NSGA-II result: its only solution has objective value
`-1/200000`, which is not below the `-1e-5` threshold. -/
def exResDegenerate : Option (List (List Bool × ℚ)) :=
  some [(List.replicate 11 true, -(1 / 200000))]

/-- A twelve-player scored pool with distinct ids. -/
def exPool12 : List Player :=
  exTeam ++ [⟨11, "B", Role.BAT, 60, 60, 99, 9⟩]

/-- A mask selecting five of the twelve players of `exPool12`. -/
def exMask5 : List Bool :=
  [true, false, true, false, true, false, true, false, true, false, false, false]

/-- A single-row raw table: a batter with both form values missing. -/
def exRawBat : RawPlayer := ⟨"n0", "T1", Role.BAT, none, none⟩

end MooCode

namespace Optimize

/-- Eleven selected players, ids 0-10 with strictly decreasing scores
10, 9, ..., 1, 0.  Only the weakest player (id 10, score 0) bats inside the
lineup-order threshold (`lineupOrder = 1 < 5`); everyone else has
`lineupOrder = 9`. -/
def exTeam : List Player :=
  [⟨0, 10, 9⟩, ⟨1, 9, 9⟩, ⟨2, 8, 9⟩, ⟨3, 7, 9⟩, ⟨4, 6, 9⟩, ⟨5, 5, 9⟩,
   ⟨6, 4, 9⟩, ⟨7, 3, 9⟩, ⟨8, 2, 9⟩, ⟨9, 1, 9⟩, ⟨10, 0, 1⟩]

/-- Eleven selected players of which two (ids 3 and 7) meet the lineup-order
threshold. -/
def exTeamTwoCands : List Player :=
  [⟨0, 10, 9⟩, ⟨1, 9, 9⟩, ⟨2, 8, 9⟩, ⟨3, 7, 2⟩, ⟨4, 6, 9⟩, ⟨5, 5, 9⟩,
   ⟨6, 4, 9⟩, ⟨7, 3, 1⟩, ⟨8, 2, 9⟩, ⟨9, 1, 9⟩, ⟨10, 0, 9⟩]

end Optimize

section Theorems

/-- C4, counterexample: `ipl.py` scores the all-rounder with batting 10 and
bowling 0 as `1 * ((10 + 0) / 2) = 5` (with its module-level default weights,
`allrounder_weight` never being reassigned), while the claimed formula
`allrounderWeight * max(batting, bowling)` with
`allrounderWeight = max(1, (battingWeight + bowlingWeight) / 2)` gives 10. -/
theorem ipl_allrounder_average_not_max :
    Ipl.calculate_score 1 1 1 1 Role.ALL 10 0 = 5
    ∧ specAllrounderScore 1 1 10 0 = 10
    ∧ Ipl.calculate_score 1 1 1 1 Role.ALL 10 0 ≠ specAllrounderScore 1 1 10 0 := by
  have hscore : Ipl.calculate_score 1 1 1 1 Role.ALL 10 0 = 5 := by
    unfold Ipl.calculate_score
    rw [if_neg (by decide : ¬(Role.ALL = Role.BAT)),
      if_neg (by decide : ¬(Role.ALL = Role.BOWL)), if_pos rfl]
    norm_num
  have hspec : specAllrounderScore 1 1 10 0 = 10 := by
    norm_num [specAllrounderScore, specAllrounderWeight, max_def]
  exact ⟨hscore, hspec, by rw [hscore, hspec]; norm_num⟩

/-- C4 (amended): in `moo-2.py` (and identically `moo-code.py` and
`src/src/optimize.py`) the ALLROUNDER score is the maximum of the scaled
batting and bowling metrics times the all-rounder weight, and that weight
equals `max(1, (battingWeight + bowlingWeight) / 2)`, hence is never below 1;
`ipl.py` (average of the metrics, weight fixed at its 1.0 default) and
`final_v4.py` (weight fixed at 1) deviate from this formula. -/
theorem moo2_allrounder_max_weighted (bw kw blw bat bowl : ℚ) (r : Role)
    (h : r = Role.ALL) :
    Moo2.calculate_score bw kw blw (Moo2.allrounderWeightOf bw blw) r bat bowl
      = Moo2.allrounderWeightOf bw blw * (Moo2.form_scale_factor * max bat bowl)
    ∧ Moo2.allrounderWeightOf bw blw = specAllrounderWeight bw blw
    ∧ 1 ≤ Moo2.allrounderWeightOf bw blw := by
  subst h
  have hw : Moo2.allrounderWeightOf bw blw = specAllrounderWeight bw blw := by
    unfold Moo2.allrounderWeightOf specAllrounderWeight
    by_cases hlt : (bw + blw) / 2 < 1
    · simp [hlt, max_eq_left (le_of_lt hlt)]
    · simp [hlt, max_eq_right (not_lt.mp hlt)]
  refine ⟨?_, hw, hw ▸ le_max_left 1 ((bw + blw) / 2)⟩
  have hfs : (0 : ℚ) ≤ Moo2.form_scale_factor := by norm_num [Moo2.form_scale_factor]
  simp only [Moo2.calculate_score]
  rw [if_neg (by decide : ¬(Role.ALL = Role.BAT)),
    if_neg (by decide : ¬(Role.ALL = Role.WK)),
    if_neg (by decide : ¬(Role.ALL = Role.BOWL)), if_pos trivial,
    mul_comm Moo2.form_scale_factor (max bat bowl), max_mul_of_nonneg bat bowl hfs]

/-- C4, witness instantiating the amended theorem at batter weight 2, bowler
weight 1, batting 7, bowling 3. -/
theorem moo2_allrounder_max_weighted_witness :
    Moo2.calculate_score 2 2 1 (Moo2.allrounderWeightOf 2 1) Role.ALL 7 3
      = Moo2.allrounderWeightOf 2 1 * (Moo2.form_scale_factor * max 7 3)
    ∧ Moo2.allrounderWeightOf 2 1 = specAllrounderWeight 2 1
    ∧ 1 ≤ Moo2.allrounderWeightOf 2 1 :=
  moo2_allrounder_max_weighted 2 2 1 7 3 Role.ALL rfl

/-- C6, counterexample: a batter with both form values missing is filled with
zeros and then removed from `moo-code.py`'s candidate pool by the non-WK
low-form filter, so absence of history does remove an otherwise-eligible
player there. -/
theorem moocode_drops_missing_form_batter :
    MooCode.preprocessPool [MooCode.exRawBat] = []
    ∧ ([MooCode.exRawBat] : List MooCode.RawPlayer).length = 1 := by
  constructor <;> rfl

/-- C6 (amended): missing metric values are replaced by 0 in place (the
`fillna(0)` step keeps the row, its identity and its position, as in
`final_v4.py`); under `moo-code.py`'s additional low-form filter a
wicketkeeper with missing metrics still remains in the pool, but a
non-wicketkeeper with both metrics missing is excluded from the candidate
pool. -/
theorem missing_forms_filled (raw : List MooCode.RawPlayer) (i : Nat)
    (p : MooCode.RawPlayer) (hp : raw.get? i = some p)
    (hbat : p.battingForm? = none) (hbowl : p.bowlingForm? = none) :
    (MooCode.fillForms raw).get? i = some (MooCode.fillOne p)
    ∧ (MooCode.fillOne p).battingForm = 0
    ∧ (MooCode.fillOne p).bowlingForm = 0
    ∧ (MooCode.fillForms raw).length = raw.length
    ∧ (p.role = Role.WK → MooCode.fillOne p ∈ MooCode.preprocessPool raw)
    ∧ (p.role ≠ Role.WK → MooCode.fillOne p ∉ MooCode.preprocessPool raw) := by
  have hmem : MooCode.fillOne p ∈ MooCode.fillForms raw := by
    exact List.mem_map_of_mem MooCode.fillOne (List.get?_mem hp)
  refine ⟨?_, ?_, ?_, ?_, ?_, ?_⟩
  · unfold MooCode.fillForms
    rw [List.get?_map, hp]
    rfl
  · simp [MooCode.fillOne, hbat]
  · simp [MooCode.fillOne, hbowl]
  · simp [MooCode.fillForms]
  · intro hwk
    refine List.mem_filter.mpr ⟨hmem, ?_⟩
    simp [MooCode.keepAfterFill, MooCode.fillOne, hwk]
  · intro hnwk hin
    have hkeep := (List.mem_filter.mp hin).2
    simp [MooCode.keepAfterFill, MooCode.fillOne, hbat, hbowl, hnwk] at hkeep

/-- C6, witness instantiating the amended theorem at the one-row table whose
batter has both forms missing. -/
theorem missing_forms_filled_witness :
    (MooCode.fillForms [MooCode.exRawBat]).get? 0 = some (MooCode.fillOne MooCode.exRawBat)
    ∧ (MooCode.fillOne MooCode.exRawBat).battingForm = 0
    ∧ (MooCode.fillOne MooCode.exRawBat).bowlingForm = 0
    ∧ (MooCode.fillForms [MooCode.exRawBat]).length = [MooCode.exRawBat].length
    ∧ (MooCode.exRawBat.role = Role.WK →
        MooCode.fillOne MooCode.exRawBat ∈ MooCode.preprocessPool [MooCode.exRawBat])
    ∧ (MooCode.exRawBat.role ≠ Role.WK →
        MooCode.fillOne MooCode.exRawBat ∉ MooCode.preprocessPool [MooCode.exRawBat]) :=
  missing_forms_filled [MooCode.exRawBat] 0 MooCode.exRawBat rfl rfl rfl

/-- C7: whenever the NSGA-II result is empty or degenerate (no solution with
objective value below the `-1e-5` threshold), `moo-code.py` returns the
deterministic top-11-by-adjusted-score selection and emits the fallback
signal (the `logger.error` / `logger.warning` recorded by the boolean of the
model) instead of silently returning an empty selection. -/
theorem degenerate_front_falls_back (players : List MooCode.Player)
    (res : Option (List (List Bool × ℚ))) (h : MooCode.degenerateFront res = true) :
    MooCode.chooseSolution players res = ((MooCode.sortAdjDesc players).take 11, true) := by
  cases res with
  | none => simp [MooCode.chooseSolution, MooCode.top11]
  | some sols =>
    simp only [MooCode.degenerateFront, Bool.or_eq_true, List.isEmpty_iff,
      List.all_eq_true] at h
    rcases h with h | h
    · subst h
      simp [MooCode.chooseSolution, MooCode.top11]
    · have hf : sols.filter (fun s => decide (s.2 < -(1 / 100000 : ℚ))) = [] := by
        refine List.filter_eq_nil_iff.mpr ?_
        intro a ha
        have := h a ha
        simpa using this
      by_cases he : sols.length = 0
      · simp [MooCode.chooseSolution, he, MooCode.top11]
      · simp only [MooCode.chooseSolution]
        rw [if_neg he, hf]
        rfl

/-- C7, witness: the concrete degenerate result (single solution with
objective value `-1/200000 > -1e-5`) triggers the flagged top-11 fallback. -/
theorem degenerate_front_falls_back_witness :
    MooCode.degenerateFront MooCode.exResDegenerate = true
    ∧ MooCode.chooseSolution MooCode.exTeam MooCode.exResDegenerate
        = ((MooCode.sortAdjDesc MooCode.exTeam).take 11, true) :=
  have h : MooCode.degenerateFront MooCode.exResDegenerate = true := by
    norm_num [MooCode.degenerateFront, MooCode.exResDegenerate]
  ⟨h, degenerate_front_falls_back MooCode.exTeam MooCode.exResDegenerate h⟩

end Theorems

/-- Helper: the `runs` accumulation loop equals the spec's sum formula. -/
theorem objRuns_eq_specTotal (pool : List Rohit.Player) (x c vc : List Bool) :
    Rohit.objRuns pool x c vc = Rohit.specTotal Rohit.Player.runs pool x c vc := by
  induction pool generalizing x c vc with
  | nil => simp [Rohit.objRuns, Rohit.specTotal]
  | cons p ps ih =>
    cases x with
    | nil => simp [Rohit.objRuns, Rohit.specTotal]
    | cons xb xs =>
      cases c with
      | nil => simp [Rohit.objRuns, Rohit.specTotal]
      | cons cb cs =>
        cases vc with
        | nil => simp [Rohit.objRuns, Rohit.specTotal]
        | cons vb vs =>
          simp [Rohit.objRuns, Rohit.specTotal, Rohit.capMultiplier, ih xs cs vs]

/-- Helper: the `wkts` accumulation loop equals the spec's sum formula. -/
theorem objWkts_eq_specTotal (pool : List Rohit.Player) (x c vc : List Bool) :
    Rohit.objWkts pool x c vc = Rohit.specTotal Rohit.Player.wkts pool x c vc := by
  induction pool generalizing x c vc with
  | nil => simp [Rohit.objWkts, Rohit.specTotal]
  | cons p ps ih =>
    cases x with
    | nil => simp [Rohit.objWkts, Rohit.specTotal]
    | cons xb xs =>
      cases c with
      | nil => simp [Rohit.objWkts, Rohit.specTotal]
      | cons cb cs =>
        cases vc with
        | nil => simp [Rohit.objWkts, Rohit.specTotal]
        | cons vb vs =>
          simp [Rohit.objWkts, Rohit.specTotal, Rohit.capMultiplier, ih xs cs vs]

/-- Helper: the `dis` accumulation loop equals the spec's sum formula. -/
theorem objDis_eq_specTotal (pool : List Rohit.Player) (x c vc : List Bool) :
    Rohit.objDis pool x c vc = Rohit.specTotal Rohit.Player.dis pool x c vc := by
  induction pool generalizing x c vc with
  | nil => simp [Rohit.objDis, Rohit.specTotal]
  | cons p ps ih =>
    cases x with
    | nil => simp [Rohit.objDis, Rohit.specTotal]
    | cons xb xs =>
      cases c with
      | nil => simp [Rohit.objDis, Rohit.specTotal]
      | cons cb cs =>
        cases vc with
        | nil => simp [Rohit.objDis, Rohit.specTotal]
        | cons vb vs =>
          simp [Rohit.objDis, Rohit.specTotal, Rohit.capMultiplier, ih xs cs vs]

/-- C5: in Strategy B with captaincy in the genome
(`ipl-rohit/src-v2/team_optimization.py` lines 54-65), each of the three
objective totals (runs, wickets, dismissals) equals
`Σ metric[i] * (selected[i] + captain[i] + 0.5 * vice_captain[i])`, so a
selected captain's metric counts double
(`capMultiplier true true false = 2`) and a selected vice-captain's metric
counts 1.5 times (`capMultiplier true false true = 3/2`). -/
theorem strategyB_objective_totals (pool : List Rohit.Player) (x c vc : List Bool) :
    (Rohit.objRuns pool x c vc = Rohit.specTotal Rohit.Player.runs pool x c vc
     ∧ Rohit.objWkts pool x c vc = Rohit.specTotal Rohit.Player.wkts pool x c vc
     ∧ Rohit.objDis pool x c vc = Rohit.specTotal Rohit.Player.dis pool x c vc)
    ∧ Rohit.capMultiplier true true false = 2
    ∧ Rohit.capMultiplier true false true = 3 / 2
    ∧ Rohit.capMultiplier true false false = 1 := by
  refine ⟨⟨objRuns_eq_specTotal pool x c vc, objWkts_eq_specTotal pool x c vc,
    objDis_eq_specTotal pool x c vc⟩, ?_, ?_, ?_⟩ <;> norm_num [Rohit.capMultiplier]

/-- Helper: the extracted roster has one entry per selected player. -/
theorem rosterTags_length (pool : List Rohit.Player) (x c vc : List Bool)
    (hx : x.length = pool.length) (hc : c.length = pool.length)
    (hvc : vc.length = pool.length) :
    (Rohit.rosterTags pool x c vc).length = countTrue x := by
  induction pool generalizing x c vc with
  | nil =>
    cases x with
    | nil => simp [Rohit.rosterTags, countTrue]
    | cons xb xs => simp at hx
  | cons p ps ih =>
    cases x with
    | nil => simp at hx
    | cons xb xs =>
      cases c with
      | nil => simp at hc
      | cons cb cs =>
        cases vc with
        | nil => simp at hvc
        | cons vb vs =>
          have hrec := ih xs cs vs (by simpa using hx) (by simpa using hc)
            (by simpa using hvc)
          cases xb <;>
            simp [Rohit.rosterTags, countTrue, List.count_cons, hrec]

/-- Helper: under the captaincy links, the roster carries exactly
`countTrue c` Captain tags. -/
theorem rosterTags_captain_count (pool : List Rohit.Player) (x c vc : List Bool)
    (hx : x.length = pool.length) (hc : c.length = pool.length)
    (hvc : vc.length = pool.length) (hlink : Rohit.capLinkedB x c vc = true) :
    tagCount Tag.Captain (Rohit.rosterTags pool x c vc) = countTrue c := by
  induction pool generalizing x c vc with
  | nil =>
    cases x with
    | nil =>
      cases c with
      | nil => simp [Rohit.rosterTags, tagCount, countTrue]
      | cons cb cs => simp at hc
    | cons xb xs => simp at hx
  | cons p ps ih =>
    cases x with
    | nil => simp at hx
    | cons xb xs =>
      cases c with
      | nil => simp at hc
      | cons cb cs =>
        cases vc with
        | nil => simp at hvc
        | cons vb vs =>
          simp only [Rohit.capLinkedB, Bool.and_eq_true] at hlink
          obtain ⟨⟨⟨h1, h2⟩, h3⟩, hrest⟩ := hlink
          have hrec := ih xs cs vs (by simpa using hx) (by simpa using hc)
            (by simpa using hvc) hrest
          cases xb with
          | false =>
            simp only [Bool.or_false, Bool.not_eq_true'] at h1 h2
            subst h1
            subst h2
            simpa [Rohit.rosterTags, countTrue, List.count_cons] using hrec
          | true =>
            cases cb with
            | true =>
              simp only [Bool.true_and, Bool.not_eq_true'] at h3
              subst h3
              simp [Rohit.rosterTags, tagCount, List.filter_cons, countTrue,
                List.count_cons] at hrec ⊢
              omega
            | false =>
              cases vb <;>
                · simp [Rohit.rosterTags, tagCount, List.filter_cons, countTrue,
                    List.count_cons] at hrec ⊢
                  omega

/-- Helper: under the captaincy links, the roster carries exactly
`countTrue vc` Vice-Captain tags. -/
theorem rosterTags_vice_count (pool : List Rohit.Player) (x c vc : List Bool)
    (hx : x.length = pool.length) (hc : c.length = pool.length)
    (hvc : vc.length = pool.length) (hlink : Rohit.capLinkedB x c vc = true) :
    tagCount Tag.ViceCaptain (Rohit.rosterTags pool x c vc) = countTrue vc := by
  induction pool generalizing x c vc with
  | nil =>
    cases x with
    | nil =>
      cases vc with
      | nil => simp [Rohit.rosterTags, tagCount, countTrue]
      | cons vb vs => simp at hvc
    | cons xb xs => simp at hx
  | cons p ps ih =>
    cases x with
    | nil => simp at hx
    | cons xb xs =>
      cases c with
      | nil => simp at hc
      | cons cb cs =>
        cases vc with
        | nil => simp at hvc
        | cons vb vs =>
          simp only [Rohit.capLinkedB, Bool.and_eq_true] at hlink
          obtain ⟨⟨⟨h1, h2⟩, h3⟩, hrest⟩ := hlink
          have hrec := ih xs cs vs (by simpa using hx) (by simpa using hc)
            (by simpa using hvc) hrest
          cases xb with
          | false =>
            simp only [Bool.or_false, Bool.not_eq_true'] at h1 h2
            subst h1
            subst h2
            simpa [Rohit.rosterTags, countTrue, List.count_cons] using hrec
          | true =>
            cases cb with
            | true =>
              simp only [Bool.true_and, Bool.not_eq_true'] at h3
              subst h3
              simp [Rohit.rosterTags, tagCount, List.filter_cons, countTrue,
                List.count_cons] at hrec ⊢
              omega
            | false =>
              cases vb <;>
                · simp [Rohit.rosterTags, tagCount, List.filter_cons, countTrue,
                    List.count_cons] at hrec ⊢
                  omega

/-- Helper: the credit total of the extracted roster is the credit total of
the selection mask. -/
theorem rosterTags_credits (pool : List Rohit.Player) (x c vc : List Bool)
    (hx : x.length = pool.length) (hc : c.length = pool.length)
    (hvc : vc.length = pool.length) :
    ((Rohit.rosterTags pool x c vc).map (fun q => q.1.credits)).sum
      = Rohit.creditsSel pool x := by
  induction pool generalizing x c vc with
  | nil =>
    cases x with
    | nil => simp [Rohit.rosterTags, Rohit.creditsSel]
    | cons xb xs => simp at hx
  | cons p ps ih =>
    cases x with
    | nil => simp at hx
    | cons xb xs =>
      cases c with
      | nil => simp at hc
      | cons cb cs =>
        cases vc with
        | nil => simp at hvc
        | cons vb vs =>
          have hrec := ih xs cs vs (by simpa using hx) (by simpa using hc)
            (by simpa using hvc)
          cases xb <;> simp [Rohit.rosterTags, Rohit.creditsSel, hrec]

/-- C1 (amended): in the `ipl-rohit` LP formulation, any captain-aware
assignment satisfying the model's constraint set yields a roster with exactly
11 entries, exactly one tagged Captain and exactly one tagged Vice-Captain
(necessarily two different entries of the 11, since each roster entry carries
a single tag); but the claim fails for the repository at large: `moo-code.py`
can return a roster with no Captain at all (see the counterexample) and
`final_v2.py` selects 12 players (`total_players = 12`). -/
theorem rohit_roster_valid (t1 t2 : String) (pool : List Rohit.Player)
    (x c vc : List Bool) (h : Rohit.feasible t1 t2 pool x c vc) :
    (Rohit.rosterTags pool x c vc).length = 11
    ∧ tagCount Tag.Captain (Rohit.rosterTags pool x c vc) = 1
    ∧ tagCount Tag.ViceCaptain (Rohit.rosterTags pool x c vc) = 1 := by
  obtain ⟨hx, hc, hvc, h11, -, -, -, -, -, -, -, -, -, -, -, -, -, hc1, hvc1, hlink⟩ := h
  refine ⟨?_, ?_, ?_⟩
  · rw [rosterTags_length pool x c vc hx hc hvc, h11]
  · rw [rosterTags_captain_count pool x c vc hx hc hvc hlink, hc1]
  · rw [rosterTags_vice_count pool x c vc hx hc hvc hlink, hvc1]

/-- C1, witness: the concrete 22-player pool with a feasible selection of 11
(captain `a0`, vice-captain `a1`). -/
theorem rohit_roster_valid_witness :
    (Rohit.rosterTags Rohit.exPool Rohit.exX Rohit.exC Rohit.exVC).length = 11
    ∧ tagCount Tag.Captain (Rohit.rosterTags Rohit.exPool Rohit.exX Rohit.exC Rohit.exVC) = 1
    ∧ tagCount Tag.ViceCaptain (Rohit.rosterTags Rohit.exPool Rohit.exX Rohit.exC Rohit.exVC) = 1 :=
  rohit_roster_valid "A" "B" Rohit.exPool Rohit.exX Rohit.exC Rohit.exVC
    (by
      norm_num [Rohit.feasible, Rohit.exPool, Rohit.exX, Rohit.exC, Rohit.exVC,
        countTrue, Rohit.roleCountSel, Rohit.teamCountSel, Rohit.creditsSel,
        Rohit.capLinkedB, List.count_cons]
      decide)

set_option maxRecDepth 4000 in
/-- C1, counterexample: running `moo-code.py`'s pipeline on eleven players
whose forms are all 60 (each individually acceptable to the pool filter, none
above the 80-point captaincy bar) with a valid NSGA-II solution selecting all
eleven returns an 11-player roster carrying zero Captain tags and zero
Vice-Captain tags, so a returned roster does not always have exactly one
Captain. -/
theorem moocode_roster_without_captain :
    (MooCode.optimize_team MooCode.exTeam MooCode.exRes).map
        (fun r => ((r.1.length, r.2), tagCount Tag.Captain r.1, tagCount Tag.ViceCaptain r.1))
      = some ((11, false), 0, 0) := by
  norm_num [MooCode.optimize_team, MooCode.exTeam, MooCode.exRes,
    MooCode.chooseSolution, MooCode.argminF, MooCode.applyMask, MooCode.adjustTeam,
    MooCode.assignRoles, MooCode.sortAdjDesc, MooCode.insertAdjDesc, MooCode.highForm,
    MooCode.top11, MooCode.unselected, tagCount, List.filter_cons, List.filter_nil,
    List.replicate]
  simp

/-- C2 (amended): in the variants that impose the credit constraint (the
`ipl-rohit` LP shown here; also `moo-2.py`/`moo-code.py` as a soft NSGA-II
constraint), the credit total of any roster extracted from a feasible
assignment is at most the 100-credit ceiling; but `v1.py` imposes no credit
constraint at all, so its rosters can exceed 100 credits (see the
counterexample). -/
theorem rohit_roster_credits_le_budget (t1 t2 : String) (pool : List Rohit.Player)
    (x c vc : List Bool) (h : Rohit.feasible t1 t2 pool x c vc) :
    ((Rohit.rosterTags pool x c vc).map (fun q => q.1.credits)).sum ≤ 100 := by
  obtain ⟨hx, hc, hvc, -, -, -, -, -, -, -, -, -, -, -, -, -, hcred, -, -, -⟩ := h
  rw [rosterTags_credits pool x c vc hx hc hvc]
  exact hcred

/-- C2, witness: the same concrete feasible selection; its roster costs 88
credits. -/
theorem rohit_roster_credits_le_budget_witness :
    ((Rohit.rosterTags Rohit.exPool Rohit.exX Rohit.exC Rohit.exVC).map
        (fun q => q.1.credits)).sum ≤ 100 :=
  rohit_roster_credits_le_budget "A" "B" Rohit.exPool Rohit.exX Rohit.exC Rohit.exVC
    (by
      norm_num [Rohit.feasible, Rohit.exPool, Rohit.exX, Rohit.exC, Rohit.exVC,
        countTrue, Rohit.roleCountSel, Rohit.teamCountSel, Rohit.creditsSel,
        Rohit.capLinkedB, List.count_cons]
      decide)

set_option maxRecDepth 100000 in
/-- C2, counterexample: `v1.py` (which has no credit constraint) run on an
11-player pool of 10-credit players is forced to select all eleven, a roster
worth 110 credits, exceeding the 100-credit ceiling the claim asserts. -/
theorem v1_roster_credits_exceed_budget :
    V1.optimize_team "A" "B" V1.exPool = some (List.replicate 11 true)
    ∧ V1.creditsSel V1.exPool (List.replicate 11 true) = 110
    ∧ ¬ (V1.creditsSel V1.exPool (List.replicate 11 true) ≤ 100) := by
  refine ⟨by decide, ?_, ?_⟩ <;>
    norm_num [V1.exPool, V1.creditsSel, List.replicate]

/-- Helper: over a two-team pool, the pre-check passes exactly when no
minimum is violated. -/
theorem precheck_none_iff (pool : List Rohit.Player) (t1 t2 : String)
    (huniq : Rohit.uniqueTeams pool = [t1, t2]) :
    (Rohit.belowMinimumsB pool = true → ∃ e, Rohit.precheck pool = some e)
    ∧ (Rohit.belowMinimumsB pool = false → Rohit.precheck pool = none) := by
  unfold Rohit.precheck Rohit.belowMinimumsB
  rw [huniq]
  by_cases h1 : pool.length < 11
  · simp [h1]
  · by_cases h2 : Rohit.roleCountPool Role.WK pool < 1
    · simp [h1, h2]
    · by_cases h3 : Rohit.roleCountPool Role.BAT pool < 3
      · simp [h1, h2, h3]
      · by_cases h4 : Rohit.roleCountPool Role.BOWL pool < 3
        · simp [h1, h2, h3, h4]
        · by_cases h5 : Rohit.roleCountPool Role.ALL pool < 1
          · simp [h1, h2, h3, h4, h5]
          · by_cases h6 : Rohit.teamCountPool t1 pool < 5 ∨ Rohit.teamCountPool t2 pool < 5
            · rcases h6 with h6 | h6 <;> simp [h1, h2, h3, h4, h5, h6]
            · rw [not_or] at h6
              simp [h1, h2, h3, h4, h5, h6.1, h6.2]

/-- C3: when the pool read by `ipl-rohit`'s `optimize_team` violates one of
the pre-checked minimums (fewer than 11 players, or fewer than the required
1 WK / 3 BAT / 3 BOWL / 1 ALL, or some team under 5 players), the run raises
the descriptive `ValueError` and its outcome is independent of the solver -
the solver is never invoked; when no minimum is violated, the run is exactly
the solver applied to the pool; in particular a pool with no all-rounders
always errors out before any solver invocation. -/
theorem rohit_precheck_gates_solver
    (s1 s2 : List Rohit.Player → List (Rohit.Player × Tag))
    (pool : List Rohit.Player) (t1 t2 : String)
    (huniq : Rohit.uniqueTeams pool = [t1, t2]) :
    (Rohit.belowMinimumsB pool = true →
      (Rohit.optimize_team s1 pool).isOk = false
      ∧ Rohit.optimize_team s1 pool = Rohit.optimize_team s2 pool)
    ∧ (Rohit.belowMinimumsB pool = false →
      Rohit.optimize_team s1 pool = Except.ok (s1 pool))
    ∧ (Rohit.roleCountPool Role.ALL pool = 0 →
      (Rohit.optimize_team s1 pool).isOk = false
      ∧ Rohit.optimize_team s1 pool = Rohit.optimize_team s2 pool) := by
  have hpre := precheck_none_iff pool t1 t2 huniq
  have herr : Rohit.belowMinimumsB pool = true →
      (Rohit.optimize_team s1 pool).isOk = false
      ∧ Rohit.optimize_team s1 pool = Rohit.optimize_team s2 pool := by
    intro hb
    obtain ⟨e, he⟩ := hpre.1 hb
    simp [Rohit.optimize_team, he, Except.isOk, Except.toBool]
  refine ⟨herr, ?_, ?_⟩
  · intro hb
    simp [Rohit.optimize_team, hpre.2 hb]
  · intro hall
    refine herr ?_
    unfold Rohit.belowMinimumsB
    simp [hall]

/-- C3, witness: the concrete two-team pool with no all-rounders errors out
identically under two different solvers. -/
theorem rohit_precheck_gates_solver_witness :
    Rohit.roleCountPool Role.ALL Rohit.exPoolNoAll = 0
    ∧ ((Rohit.optimize_team Rohit.solverA Rohit.exPoolNoAll).isOk = false
       ∧ Rohit.optimize_team Rohit.solverA Rohit.exPoolNoAll
           = Rohit.optimize_team Rohit.solverB Rohit.exPoolNoAll) :=
  ⟨by decide,
    (rohit_precheck_gates_solver Rohit.solverA Rohit.solverB Rohit.exPoolNoAll
      "A" "B" (by decide)).2.2 (by decide)⟩

/-- C8, counterexample: on a selected 11 in which exactly one player (id 10,
the lowest scorer) meets the lineup-order threshold, `optimize.py` makes that
player Captain and the best remaining scorer Vice-Captain, while the claim's
rule ("fewer than two candidates: fall back to the two highest-scoring
players overall") would pick ids 0 and 1. -/
theorem assignCVC_single_candidate_differs :
    Optimize.assignCVC Optimize.exTeam = (some 10, some 0)
    ∧ Optimize.specAssignCVC Optimize.exTeam = (some 0, some 1)
    ∧ Optimize.assignCVC Optimize.exTeam ≠ Optimize.specAssignCVC Optimize.exTeam := by
  have h1 : Optimize.assignCVC Optimize.exTeam = (some 10, some 0) := by
    norm_num [Optimize.assignCVC, Optimize.exTeam, Optimize.sortScoreDesc,
      Optimize.insertScoreDesc, Optimize.preferred_order_threshold,
      List.filter_cons, List.filter_nil]
  have h2 : Optimize.specAssignCVC Optimize.exTeam = (some 0, some 1) := by
    norm_num [Optimize.specAssignCVC, Optimize.exTeam, Optimize.sortScoreDesc,
      Optimize.insertScoreDesc, Optimize.preferred_order_threshold,
      List.filter_cons, List.filter_nil]
  refine ⟨h1, h2, ?_⟩
  rw [h1, h2]
  simp

/-- C8 (amended): in `optimize.py`'s post-hoc role assignment, when at least
two selected players have lineup order below the threshold, Captain and
Vice-Captain are the two highest-scoring such candidates; when no selected
player meets the threshold, they are the two highest-scoring players overall;
but when exactly one player meets the threshold, that player is Captain
(however low their score) and the Vice-Captain is the highest-scoring of the
remaining players - not the claimed fallback to the two highest scorers
overall. -/
theorem assignCVC_cases (team : List Optimize.Player) :
    (∀ c v rest,
      (Optimize.sortScoreDesc team).filter
          (fun p => decide (p.lineupOrder < Optimize.preferred_order_threshold))
        = c :: v :: rest →
      Optimize.assignCVC team = (some c.id, some v.id))
    ∧ (∀ c,
      (Optimize.sortScoreDesc team).filter
          (fun p => decide (p.lineupOrder < Optimize.preferred_order_threshold)) = [c] →
      Optimize.assignCVC team
        = (some c.id, ((Optimize.sortScoreDesc team).filter
            (fun q => decide (q.id ≠ c.id))).head?.map Optimize.Player.id))
    ∧ ((Optimize.sortScoreDesc team).filter
          (fun p => decide (p.lineupOrder < Optimize.preferred_order_threshold)) = [] →
      Optimize.assignCVC team = Optimize.specAssignCVC team) := by
  refine ⟨?_, ?_, ?_⟩
  · intro c v rest h
    simp only [Optimize.assignCVC]
    rw [h]
  · intro c h
    have hgoal : Optimize.assignCVC team
        = (match (Optimize.sortScoreDesc team).filter (fun q => decide (q.id ≠ c.id)) with
           | v :: _ => (some c.id, some v.id)
           | [] => (some c.id, none)) := by
      simp only [Optimize.assignCVC]
      rw [h]
    rw [hgoal]
    rcases hfil : (Optimize.sortScoreDesc team).filter (fun q => decide (q.id ≠ c.id)) with
      - | ⟨v, vs⟩ <;> rw [hfil] <;> rfl
  · intro h
    simp only [Optimize.assignCVC, Optimize.specAssignCVC]
    rw [h]

/-- C8, witness: with two threshold candidates (ids 3 and 7), the two
highest-scoring candidates become Captain and Vice-Captain. -/
theorem assignCVC_cases_witness :
    Optimize.assignCVC Optimize.exTeamTwoCands = (some 3, some 7) :=
  (assignCVC_cases Optimize.exTeamTwoCands).1 ⟨3, 7, 2⟩ ⟨7, 3, 1⟩ []
    (by
      norm_num [Optimize.exTeamTwoCands, Optimize.sortScoreDesc,
        Optimize.insertScoreDesc, Optimize.preferred_order_threshold,
        List.filter_cons, List.filter_nil])

/-- Helper: inserting into the descending sort grows the length by one. -/
theorem insertAdjDesc_length (p : MooCode.Player) (l : List MooCode.Player) :
    (MooCode.insertAdjDesc p l).length = l.length + 1 := by
  induction l with
  | nil => rfl
  | cons q qs ih =>
    simp only [MooCode.insertAdjDesc]
    split <;> simp [ih]

/-- Helper: the descending sort preserves length. -/
theorem sortAdjDesc_length (l : List MooCode.Player) :
    (MooCode.sortAdjDesc l).length = l.length := by
  induction l with
  | nil => rfl
  | cons p ps ih => simp [MooCode.sortAdjDesc, insertAdjDesc_length, ih]

/-- Helper: a masked selection only contains pool members. -/
theorem applyMask_mem (players : List MooCode.Player) (mask : List Bool)
    (q : MooCode.Player) (hq : q ∈ MooCode.applyMask players mask) : q ∈ players := by
  induction players generalizing mask with
  | nil => cases mask <;> simp [MooCode.applyMask] at hq
  | cons p ps ih =>
    cases mask with
    | nil => simp [MooCode.applyMask] at hq
    | cons b bs =>
      cases b with
      | false =>
        simp only [MooCode.applyMask] at hq
        exact List.mem_cons_of_mem p (ih bs (by simpa using hq))
      | true =>
        simp only [MooCode.applyMask] at hq
        rcases List.mem_cons.mp (by simpa using hq) with h | h
        · exact h ▸ List.mem_cons_self p ps
        · exact List.mem_cons_of_mem p (ih bs h)

/-- Helper: a mask and its complement split the pool's length. -/
theorem applyMask_not_length (players : List MooCode.Player) (mask : List Bool)
    (hlen : mask.length = players.length) :
    (MooCode.applyMask players mask).length
      + (MooCode.applyMask players (mask.map (fun b => !b))).length = players.length := by
  induction players generalizing mask with
  | nil => simp [MooCode.applyMask]
  | cons p ps ih =>
    cases mask with
    | nil => simp at hlen
    | cons b bs =>
      have hrec := ih bs (by simpa using hlen)
      cases b <;> simp [MooCode.applyMask] <;> omega

/-- Helper: over a pool with distinct indices, the rows not selected by a
mask are exactly the rows selected by the complementary mask. -/
theorem unselected_applyMask (players : List MooCode.Player) (mask : List Bool)
    (hlen : mask.length = players.length)
    (hnodup : (players.map MooCode.Player.id).Nodup) :
    MooCode.unselected players (MooCode.applyMask players mask)
      = MooCode.applyMask players (mask.map (fun b => !b)) := by
  induction players generalizing mask with
  | nil => cases mask <;> rfl
  | cons p ps ih =>
    cases mask with
    | nil => simp at hlen
    | cons b bs =>
      have hlen2 : bs.length = ps.length := by simpa using hlen
      obtain ⟨hp, hnd⟩ : p.id ∉ ps.map MooCode.Player.id
          ∧ (ps.map MooCode.Player.id).Nodup := by
        simpa using hnodup
      have hne : ∀ q ∈ ps, q.id ≠ p.id := by
        intro q hq hqe
        exact hp (hqe ▸ List.mem_map_of_mem MooCode.Player.id hq)
      have ihs := ih bs hlen2 hnd
      simp only [MooCode.unselected] at ihs
      cases b with
      | true =>
        have hsel : MooCode.applyMask (p :: ps) (true :: bs)
            = p :: MooCode.applyMask ps bs := by
          simp [MooCode.applyMask]
        have hcompl : MooCode.applyMask (p :: ps) ((true :: bs).map (fun b => !b))
            = MooCode.applyMask ps (bs.map (fun b => !b)) := by
          simp [MooCode.applyMask]
        rw [hsel, hcompl]
        simp only [MooCode.unselected]
        rw [List.filter_cons]
        have hpnot : (decide (p.id ∉
            ((p :: MooCode.applyMask ps bs).map MooCode.Player.id))) = false := by
          simp
        rw [hpnot]
        have hcong : List.filter (fun q => decide (q.id ∉
              ((p :: MooCode.applyMask ps bs).map MooCode.Player.id))) ps
            = List.filter (fun q => decide (q.id ∉
              ((MooCode.applyMask ps bs).map MooCode.Player.id))) ps := by
          refine List.filter_congr ?_
          intro q hq
          simp [hne q hq]
        simp only [Bool.false_eq_true, if_false, hcong, ihs]
      | false =>
        have hsel : MooCode.applyMask (p :: ps) (false :: bs)
            = MooCode.applyMask ps bs := by
          simp [MooCode.applyMask]
        have hcompl : MooCode.applyMask (p :: ps) ((false :: bs).map (fun b => !b))
            = p :: MooCode.applyMask ps (bs.map (fun b => !b)) := by
          simp [MooCode.applyMask]
        rw [hsel, hcompl]
        simp only [MooCode.unselected]
        rw [List.filter_cons]
        have hpkeep : (decide (p.id ∉
            ((MooCode.applyMask ps bs).map MooCode.Player.id))) = true := by
          simp only [decide_eq_true_eq]
          intro hmem
          obtain ⟨q, hq, hqe⟩ := List.mem_map.mp hmem
          exact hne q (applyMask_mem ps bs q hq) hqe
        rw [hpkeep]
        simp only [if_true, ihs]

/-- C10: whenever the preprocessed pool has at least 11 (distinct-index) rows,
the adjusted team of `moo-code.py` has exactly 11 rows, whatever the chosen
solution mask selected: an 11-player selection is returned unchanged, a
smaller one is padded with the highest-adjusted-score unselected players, and
a larger one is truncated to the top 11 by adjusted score - with no role,
team or credit feasibility check anywhere in the adjustment (the result holds
for arbitrary role/team/credit data). -/
theorem moocode_team_always_11 (players : List MooCode.Player) (mask : List Bool)
    (hlen : mask.length = players.length)
    (hnodup : (players.map MooCode.Player.id).Nodup)
    (hpool : 11 ≤ players.length) :
    (MooCode.adjustTeam players (MooCode.applyMask players mask)).length = 11
    ∧ ((MooCode.applyMask players mask).length = 11 →
        MooCode.adjustTeam players (MooCode.applyMask players mask)
          = MooCode.applyMask players mask)
    ∧ ((MooCode.applyMask players mask).length < 11 →
        MooCode.adjustTeam players (MooCode.applyMask players mask)
          = MooCode.applyMask players mask
            ++ (MooCode.sortAdjDesc (MooCode.unselected players
                  (MooCode.applyMask players mask))).take
                (11 - (MooCode.applyMask players mask).length))
    ∧ (11 < (MooCode.applyMask players mask).length →
        MooCode.adjustTeam players (MooCode.applyMask players mask)
          = (MooCode.sortAdjDesc (MooCode.applyMask players mask)).take 11) := by
  have hsplit := applyMask_not_length players mask hlen
  have huns := unselected_applyMask players mask hlen hnodup
  refine ⟨?_, ?_, ?_, ?_⟩
  · unfold MooCode.adjustTeam
    by_cases h11 : (MooCode.applyMask players mask).length = 11
    · rw [if_pos h11, h11]
    · rw [if_neg h11]
      by_cases hlt : (MooCode.applyMask players mask).length < 11
      · rw [if_pos hlt]
        rw [List.length_append, List.length_take, sortAdjDesc_length, huns]
        omega
      · rw [if_neg hlt, List.length_take, sortAdjDesc_length]
        omega
  · intro h11
    unfold MooCode.adjustTeam
    rw [if_pos h11]
  · intro hlt
    unfold MooCode.adjustTeam
    rw [if_neg (by omega), if_pos hlt]
  · intro hgt
    unfold MooCode.adjustTeam
    rw [if_neg (by omega), if_neg (by omega)]

/-- C10, witness: a 12-player pool with a 5-player selection is padded to
exactly 11 rows. -/
theorem moocode_team_always_11_witness :
    (MooCode.adjustTeam MooCode.exPool12
        (MooCode.applyMask MooCode.exPool12 MooCode.exMask5)).length = 11 :=
  (moocode_team_always_11 MooCode.exPool12 MooCode.exMask5
    (by decide) (by decide) (by decide)).1

/-- Helper: `final_v4.py`'s score is monotone in both metrics when the ground
weights are non-negative. -/
theorem calculate_score_mono (bw blw : ℚ) (g : FinalV4.GroundType) (r : Role)
    (t : FinalV4.BowlerType) (b b2 w w2 : ℚ)
    (hbw : 0 ≤ bw) (hblw : 0 ≤ blw) (hb : b ≤ b2) (hw : w ≤ w2) :
    FinalV4.calculate_score bw blw g r t b w
      ≤ FinalV4.calculate_score bw blw g r t b2 w2 := by
  cases r <;> cases g <;> cases t <;>
    simp [FinalV4.calculate_score, -sup_le_iff, -le_sup_iff] <;>
    gcongr <;>
    first
      | assumption
      | norm_num

/-- Helper: the home/away-adjusted score is monotone under a pointwise metric
increase that changes nothing else. -/
theorem adjustedScore_mono (bw blw : ℚ) (g : FinalV4.GroundType)
    (p q : FinalV4.Player)
    (hbw : 0 ≤ bw) (hblw : 0 ≤ blw)
    (hrole : q.role = p.role) (hteam : q.team1 = p.team1)
    (htype : q.bowler_type = p.bowler_type)
    (hbat : p.batting ≤ q.batting) (hbowl : p.bowling ≤ q.bowling) :
    FinalV4.adjustedScore bw blw g p ≤ FinalV4.adjustedScore bw blw g q := by
  unfold FinalV4.adjustedScore
  rw [hrole, hteam, htype]
  refine mul_le_mul_of_nonneg_right
    (calculate_score_mono bw blw g p.role p.bowler_type p.batting q.batting
      p.bowling q.bowling hbw hblw hbat hbowl) ?_
  cases p.team1 <;> norm_num

/-- Helper: bumping one player's batting metric raises the adjusted-score
column pointwise. -/
theorem bumpBatting_adjusted_le (bw blw : ℚ) (g : FinalV4.GroundType)
    (hbw : 0 ≤ bw) (hblw : 0 ≤ blw) (d : ℚ) (hd : 0 ≤ d) (i : Nat)
    (pool : List FinalV4.Player) :
    List.Forall₂ (fun a b => a ≤ b) (pool.map (FinalV4.adjustedScore bw blw g))
      ((FinalV4.bumpBatting d i pool).map (FinalV4.adjustedScore bw blw g)) := by
  induction pool generalizing i with
  | nil => simp [FinalV4.bumpBatting]
  | cons p ps ih =>
    cases i with
    | zero =>
      simp only [FinalV4.bumpBatting, List.map_cons]
      refine List.Forall₂.cons ?_ ?_
      · exact adjustedScore_mono bw blw g p { p with batting := p.batting + d }
          hbw hblw rfl rfl rfl (le_add_of_nonneg_right hd) le_rfl
      · exact List.forall₂_same.mpr (fun a _ => le_rfl)
    | succ n =>
      simp only [FinalV4.bumpBatting, List.map_cons]
      exact List.Forall₂.cons le_rfl (ih n)

/-- Helper: bumping one player's bowling metric raises the adjusted-score
column pointwise. -/
theorem bumpBowling_adjusted_le (bw blw : ℚ) (g : FinalV4.GroundType)
    (hbw : 0 ≤ bw) (hblw : 0 ≤ blw) (d : ℚ) (hd : 0 ≤ d) (i : Nat)
    (pool : List FinalV4.Player) :
    List.Forall₂ (fun a b => a ≤ b) (pool.map (FinalV4.adjustedScore bw blw g))
      ((FinalV4.bumpBowling d i pool).map (FinalV4.adjustedScore bw blw g)) := by
  induction pool generalizing i with
  | nil => simp [FinalV4.bumpBowling]
  | cons p ps ih =>
    cases i with
    | zero =>
      simp only [FinalV4.bumpBowling, List.map_cons]
      refine List.Forall₂.cons ?_ ?_
      · exact adjustedScore_mono bw blw g p { p with bowling := p.bowling + d }
          hbw hblw rfl rfl rfl le_rfl (le_add_of_nonneg_right hd)
      · exact List.forall₂_same.mpr (fun a _ => le_rfl)
    | succ n =>
      simp only [FinalV4.bumpBowling, List.map_cons]
      exact List.Forall₂.cons le_rfl (ih n)

/-- Helper: a selection's objective total is monotone in the score column. -/
theorem totalSel_mono (vals vals2 : List ℚ)
    (h : List.Forall₂ (fun a b => a ≤ b) vals vals2) (sel : List Bool) :
    FinalV4.totalSel vals sel ≤ FinalV4.totalSel vals2 sel := by
  induction h generalizing sel with
  | nil => cases sel <;> simp [FinalV4.totalSel]
  | @cons a b as bs hab hrest ih =>
    cases sel with
    | nil => simp [FinalV4.totalSel]
    | cons s ss =>
      cases s with
      | false =>
        simpa [FinalV4.totalSel] using ih ss
      | true =>
        simp only [FinalV4.totalSel]
        exact add_le_add (by simpa using hab) (ih ss)

/-- Helper: the fold computing the optimal value is monotone in the score
column and in the accumulator. -/
theorem foldl_max_totalSel_mono (vals vals2 : List ℚ)
    (h : List.Forall₂ (fun a b => a ≤ b) vals vals2) :
    ∀ (sels : List (List Bool)) (a a2 : ℚ), a ≤ a2 →
      sels.foldl (fun acc s => max acc (FinalV4.totalSel vals s)) a
        ≤ sels.foldl (fun acc s => max acc (FinalV4.totalSel vals2 s)) a2 := by
  intro sels
  induction sels with
  | nil =>
    intro a a2 ha
    simpa using ha
  | cons s ss ih =>
    intro a a2 ha
    simp only [List.foldl_cons]
    exact ih _ _ (max_le_max ha (totalSel_mono vals vals2 h s))

/-- C9: for `final_v4.py` (the analogous argument applies to
`moo-code.py`'s scoring), increasing a player's batting or bowling metric
with non-negative ground weights never decreases that player's computed
score, and never decreases the optimal objective value of the selection
problem over any score-independent feasible set containing that player's
pool. -/
theorem v4_score_and_optimum_monotone
    (bw blw : ℚ) (g : FinalV4.GroundType) (r : Role) (t : FinalV4.BowlerType)
    (b b2 w w2 d : ℚ) (pool : List FinalV4.Player) (i : Nat)
    (feas : List Bool → Bool)
    (hbw : 0 ≤ bw) (hblw : 0 ≤ blw) (hb : b ≤ b2) (hw : w ≤ w2) (hd : 0 ≤ d) :
    FinalV4.calculate_score bw blw g r t b w
      ≤ FinalV4.calculate_score bw blw g r t b2 w2
    ∧ FinalV4.bestValue (pool.map (FinalV4.adjustedScore bw blw g)) feas pool.length
        ≤ FinalV4.bestValue
            ((FinalV4.bumpBatting d i pool).map (FinalV4.adjustedScore bw blw g))
            feas pool.length
    ∧ FinalV4.bestValue (pool.map (FinalV4.adjustedScore bw blw g)) feas pool.length
        ≤ FinalV4.bestValue
            ((FinalV4.bumpBowling d i pool).map (FinalV4.adjustedScore bw blw g))
            feas pool.length := by
  refine ⟨calculate_score_mono bw blw g r t b b2 w w2 hbw hblw hb hw, ?_, ?_⟩
  · exact foldl_max_totalSel_mono _ _
      (bumpBatting_adjusted_le bw blw g hbw hblw d hd i pool) _ 0 0 le_rfl
  · exact foldl_max_totalSel_mono _ _
      (bumpBowling_adjusted_le bw blw g hbw hblw d hd i pool) _ 0 0 le_rfl

/-- C9, witness: a concrete instantiation (spin ground, one all-rounder pool,
batting metric raised from 1 to 2, bump 1 at index 0, trivial feasibility). -/
theorem v4_score_and_optimum_monotone_witness :
    FinalV4.calculate_score 1 1 FinalV4.GroundType.SPIN Role.ALL
        FinalV4.BowlerType.OTHER 1 0
      ≤ FinalV4.calculate_score 1 1 FinalV4.GroundType.SPIN Role.ALL
        FinalV4.BowlerType.OTHER 2 0
    ∧ FinalV4.bestValue ([⟨true, Role.ALL, FinalV4.BowlerType.OTHER, 1, 0⟩].map
          (FinalV4.adjustedScore 1 1 FinalV4.GroundType.SPIN))
        (fun _ => true) 1
        ≤ FinalV4.bestValue ((FinalV4.bumpBatting 1 0
            [⟨true, Role.ALL, FinalV4.BowlerType.OTHER, 1, 0⟩]).map
          (FinalV4.adjustedScore 1 1 FinalV4.GroundType.SPIN))
        (fun _ => true) 1
    ∧ FinalV4.bestValue ([⟨true, Role.ALL, FinalV4.BowlerType.OTHER, 1, 0⟩].map
          (FinalV4.adjustedScore 1 1 FinalV4.GroundType.SPIN))
        (fun _ => true) 1
        ≤ FinalV4.bestValue ((FinalV4.bumpBowling 1 0
            [⟨true, Role.ALL, FinalV4.BowlerType.OTHER, 1, 0⟩]).map
          (FinalV4.adjustedScore 1 1 FinalV4.GroundType.SPIN))
        (fun _ => true) 1 := by
  have h := v4_score_and_optimum_monotone 1 1 FinalV4.GroundType.SPIN Role.ALL
    FinalV4.BowlerType.OTHER 1 2 0 0 1
    [⟨true, Role.ALL, FinalV4.BowlerType.OTHER, 1, 0⟩] 0 (fun _ => true)
    (by norm_num) (by norm_num) (by norm_num) (by norm_num) (by norm_num)
  simpa using h
